import Mathlib

/-!
xai-go: request builders (`chat.go`) and connection set-up (`client.go`)

A shallow embedding of the two source files of the SDK.

Conventions of the embedding
* a Go `string` is a Lean `String`; a Go slice is a `List` (the `nil` slice and the empty
  slice are identified, as the wire format identifies them);
* a nullable pointer that encodes an optional field (`*int32`, `*string`,
  `*timestamppb.Timestamp`, `*grpc.ClientConn`, `*Client`) is an `Option`, `none` being `nil`;
* a freshly allocated message `&T{...}` is the record itself; stored in a slot of pointer
  type it is wrapped in `some`;
* `int32` and `time.Duration` values are integers; the code under study performs no
  arithmetic on them besides the constant `60 * time.Second`.
-/

set_option linter.dupNamespace false

namespace Xai

/-! ## Protocol message types (package `v1`) -/

/-- Modelled from the spec: the generated enum `v1.SearchMode` is not part of the sources;
the spec names the modes off / on / auto, next to the protocol's zero value. -/
inductive SearchMode where
  | INVALID_SEARCH_MODE
  | OFF_SEARCH_MODE
  | ON_SEARCH_MODE
  | AUTO_SEARCH_MODE
  deriving DecidableEq, Repr

/-- `SearchModeOff = v1.SearchMode_OFF_SEARCH_MODE` -/
def SearchModeOff : SearchMode := SearchMode.OFF_SEARCH_MODE

/-- `SearchModeOn = v1.SearchMode_ON_SEARCH_MODE` -/
def SearchModeOn : SearchMode := SearchMode.ON_SEARCH_MODE

/-- `SearchModeAuto = v1.SearchMode_AUTO_SEARCH_MODE` -/
def SearchModeAuto : SearchMode := SearchMode.AUTO_SEARCH_MODE

/-- Modelled from the spec: the generated enum `v1.MessageRole` is not part of the sources;
the spec names the roles user / assistant / system, next to the protocol's zero value. -/
inductive MessageRole where
  | INVALID_ROLE
  | ROLE_USER
  | ROLE_ASSISTANT
  | ROLE_SYSTEM
  deriving DecidableEq, Repr

/-- Modelled from the spec: the generated one-of wrapper of `v1.Content` is not part of the
sources; the only variant the sources construct is `Content_Text`. -/
inductive ContentOneof where
  | Content_Text (Text : String)
  deriving DecidableEq, Repr

/-- Modelled from the spec: the generated message `v1.Content` is not part of the sources;
its one field is the one-of the sources populate (`none` is the unset one-of). -/
structure Content where
  Content : Option ContentOneof := none
  deriving DecidableEq, Repr

/-- Modelled from the spec: the generated message `v1.Message` is not part of the sources;
the fields are the ones the sources populate. -/
structure Message where
  Role : MessageRole := MessageRole.INVALID_ROLE
  Content : List (Option Content) := []
  deriving DecidableEq, Repr

/-- Modelled from the spec: the generated message `v1.XSource` is not part of the sources;
the fields are the ones the sources populate. -/
structure XSourceMsg where
  IncludedXHandles : List String := []
  ExcludedXHandles : List String := []
  PostFavoriteCount : Option Int := none
  PostViewCount : Option Int := none
  deriving DecidableEq, Repr

/-- Modelled from the spec: the generated message `v1.WebSource` is not part of the sources;
the fields are the ones the sources populate. -/
structure WebSourceMsg where
  ExcludedWebsites : List String := []
  AllowedWebsites : List String := []
  Country : Option String := none
  SafeSearch : Bool := false
  deriving DecidableEq, Repr

/-- Modelled from the spec: the generated message `v1.NewsSource` is not part of the sources;
the fields are the ones the sources populate. -/
structure NewsSourceMsg where
  ExcludedWebsites : List String := []
  Country : Option String := none
  SafeSearch : Bool := false
  deriving DecidableEq, Repr

/-- Modelled from the spec: the generated message `v1.RssSource` is not part of the sources;
the field is the one the sources populate. -/
structure RssSourceMsg where
  Links : List String := []
  deriving DecidableEq, Repr

/-- Modelled from the spec: the generated one-of wrapper of `v1.Source` is not part of the
sources; the spec fixes exactly the four variants X / web / news / rss. Each wrapper holds a
pointer to its message. -/
inductive SourceOneof where
  | Source_X (X : Option XSourceMsg)
  | Source_Web (Web : Option WebSourceMsg)
  | Source_News (News : Option NewsSourceMsg)
  | Source_Rss (Rss : Option RssSourceMsg)
  deriving DecidableEq, Repr

/-- Modelled from the spec: the generated message `v1.Source` is not part of the sources;
its one field is the one-of the sources populate (`none` is the unset one-of). -/
structure Source where
  Source : Option SourceOneof := none
  deriving DecidableEq, Repr

/-- Modelled from the spec: `timestamppb.Timestamp` is not part of the sources; the wire
timestamp is a pair of seconds and nanoseconds. -/
structure Timestamp where
  Seconds : Int := 0
  Nanos : Int := 0
  deriving DecidableEq, Repr

/-- Modelled from the spec: the generated message `v1.SearchParameters` is not part of the
sources; the fields are the ones the sources populate. -/
structure SearchParametersMsg where
  Mode : SearchMode := SearchMode.INVALID_SEARCH_MODE
  Sources : List (Option Source) := []
  ReturnCitations : Bool := false
  MaxSearchResults : Option Int := none
  FromDate : Option Timestamp := none
  ToDate : Option Timestamp := none
  deriving DecidableEq, Repr

/-! ## `chat.go`: builders -/

/-- `User` creates a user-role message with a single text content. -/
def User (text : String) : Message :=
  { Role := MessageRole.ROLE_USER
    Content := [some { Content := some (ContentOneof.Content_Text text) }] }

/-- `ContentText` creates a content wrapper for plain text. -/
def ContentText (text : String) : Content :=
  { Content := some (ContentOneof.Content_Text text) }

/-- `XSource` returns a source configured for X with no filters. -/
def XSource : Source :=
  { Source := some (SourceOneof.Source_X (some {})) }

/-- `XSourceWithArgs` configures an X source with handles and optional thresholds. -/
def XSourceWithArgs (includedHandles excludedHandles : List String)
    (postFavoriteCount postViewCount : Option Int) : Source :=
  let sx : XSourceMsg :=
    { IncludedXHandles := includedHandles
      ExcludedXHandles := excludedHandles }
  let sx := if postFavoriteCount ≠ none then { sx with PostFavoriteCount := postFavoriteCount } else sx
  let sx := if postViewCount ≠ none then { sx with PostViewCount := postViewCount } else sx
  { Source := some (SourceOneof.Source_X (some sx)) }

/-- `WebSource` creates a web search source; an empty country is left unset. -/
def WebSource (excludedWebsites allowedWebsites : List String) (country : String)
    (safeSearch : Bool) : Source :=
  let ws : WebSourceMsg :=
    { ExcludedWebsites := excludedWebsites
      AllowedWebsites := allowedWebsites
      SafeSearch := safeSearch }
  let ws := if country ≠ "" then { ws with Country := some country } else ws
  { Source := some (SourceOneof.Source_Web (some ws)) }

/-- `NewsSource` creates a news search source; an empty country is left unset. -/
def NewsSource (excludedWebsites : List String) (country : String) (safeSearch : Bool) :
    Source :=
  let ns : NewsSourceMsg :=
    { ExcludedWebsites := excludedWebsites
      SafeSearch := safeSearch }
  let ns := if country ≠ "" then { ns with Country := some country } else ns
  { Source := some (SourceOneof.Source_News (some ns)) }

/-- `RssSource` creates an RSS source with the provided feed links. -/
def RssSource (links : List String) : Source :=
  { Source := some (SourceOneof.Source_Rss (some { Links := links })) }

/-- `SearchParameters` builds the parameters with explicit mode, sources and flags; the
result cap is assigned only under the guard `maxSearchResults > 0`. -/
def SearchParameters (mode : SearchMode) (returnCitations : Bool) (maxSearchResults : Int)
    (sources : List (Option Source)) : SearchParametersMsg :=
  let sp : SearchParametersMsg :=
    { Mode := mode
      Sources := sources
      ReturnCitations := returnCitations }
  if maxSearchResults > 0 then { sp with MaxSearchResults := some maxSearchResults } else sp

/-- `SearchParametersXOn` is the preset with mode on and the single unfiltered X source; the
result cap is assigned the address of the argument, without a guard. -/
def SearchParametersXOn (returnCitations : Bool) (maxSearchResults : Int) :
    SearchParametersMsg :=
  { Mode := SearchMode.ON_SEARCH_MODE
    Sources := [some XSource]
    ReturnCitations := returnCitations
    MaxSearchResults := some maxSearchResults }

/-! ## `client.go`: credentials, option resolution, construction, release -/

/-- Go's `error` values, by their message. -/
abbrev Error := String

/-- Go's `time.Duration`: a count of nanoseconds. -/
abbrev Duration := Int

/-- `time.Second` -/
def Second : Duration := 1000000000

/-- Go's `map[string]string`: finitely many entries with pairwise distinct keys, in the
order in which `range` happens to enumerate them. The `nil` map is the empty one. -/
abbrev StringMap := AList (fun _ : String => String)

/-- `perRPCCreds` injects the API key and optional metadata on every RPC. -/
structure perRPCCreds where
  apiKey : String
  extraMD : StringMap
  secure : Bool

/-- `GetRequestMetadata`: copy every entry of `extraMD` into a fresh map, then store the key
under `"x-api-key"`; the returned error is always `nil`. The context and URI arguments are
not read by the body. -/
def perRPCCreds.GetRequestMetadata (c : perRPCCreds) : StringMap × Option Error :=
  let md : StringMap := ∅
  let md := c.extraMD.foldl (fun md k v => md.insert k v) md
  let md := md.insert "x-api-key" c.apiKey
  (md, none)

/-- `RequireTransportSecurity` returns the `secure` field. -/
def perRPCCreds.RequireTransportSecurity (c : perRPCCreds) : Bool := c.secure

/-- A unary client interceptor made by `TimeoutInterceptor`, as the closure's captured
variable. -/
structure UnaryClientInterceptor where
  timeout : Duration
  deriving DecidableEq, Repr

/-- `TimeoutInterceptor` returns a unary interceptor that applies a per-call timeout. -/
def TimeoutInterceptor (timeout : Duration) : UnaryClientInterceptor := { timeout := timeout }

/-- The deadline an interceptor hands to the invoker, for a call that arrives with the
optional remaining time `ctx`: `context.WithTimeout` under the guard `timeout > 0`. -/
def UnaryClientInterceptor.deadline (i : UnaryClientInterceptor) (ctx : Option Duration) :
    Option Duration :=
  if i.timeout > 0 then
    match ctx with
    | none => some i.timeout
    | some d => some (min d i.timeout)
  else ctx

/-- The two transport credentials the constructor chooses between:
`insecure.NewCredentials()` and `credentials.NewTLS(&tls.Config{})`. -/
inductive TransportCredentials where
  | insecureCredentials
  | tlsCredentials
  deriving DecidableEq, Repr

/-- The dial options the constructor passes to `grpc.Dial`. -/
inductive DialOption where
  | WithTransportCredentials (creds : TransportCredentials)
  | WithPerRPCCredentials (creds : perRPCCreds)
  | WithChainUnaryInterceptor (interceptor : UnaryClientInterceptor)

/-- A `*grpc.ClientConn` that is not `nil`, by its identity. -/
abbrev ClientConnRef := Nat

/-- `v1.NewAuthClient(conn)`: a stub bound to its connection. -/
structure AuthClient where
  cc : ClientConnRef
  deriving DecidableEq, Repr

/-- `v1.NewChatClient(conn)`: a stub bound to its connection. -/
structure ChatClient where
  cc : ClientConnRef
  deriving DecidableEq, Repr

/-- The `Client` record. -/
structure Client where
  apiKey : String := ""
  auth : Option AuthClient := none
  chat : Option ChatClient := none
  conn : Option ClientConnRef := none
  deriving DecidableEq, Repr

/-- Lower-casing of one ASCII byte, as in the ASCII branch of `strings.ToLower`. -/
def asciiLower (c : Char) : Char :=
  if 65 ≤ c.toNat ∧ c.toNat ≤ 90 then Char.ofNat (c.toNat + 32) else c

/-- Go's `strings.ToLower`: a string of ASCII bytes only is returned as it is when it has no
upper-case letter and has `'A'..'Z'` shifted to `'a'..'z'` otherwise; any other string is
mapped rune by rune through `unicode.ToLower`, which is a parameter here. -/
def strings.ToLower (unicodeToLower : Char → Char) (s : String) : String :=
  let isASCII := s.data.all (fun c => decide (c.toNat < 128))
  let hasUpper := s.data.any (fun c => decide (65 ≤ c.toNat ∧ c.toNat ≤ 90))
  if isASCII then
    if !hasUpper then s else String.mk (s.data.map asciiLower)
  else String.mk (s.data.map unicodeToLower)

/-- The values `NewClient` resolves before it delegates: the locals `host`, `to`
(here `timeout`) and `insecure`. -/
structure ResolvedOptions where
  host : String
  timeout : Duration
  insecure : Bool
  deriving DecidableEq, Repr

/-- The option resolution of `NewClient`. `getenv` is `os.Getenv` (an unset variable reads
as the empty string), `ParseDuration` is `time.ParseDuration`, and `unicodeToLower` is the
rune mapping used by `strings.ToLower`. -/
def NewClient.resolve (getenv : String → String)
    (ParseDuration : String → Except Error Duration) (unicodeToLower : Char → Char) :
    ResolvedOptions :=
  let host := getenv "XAI_API_HOST"
  let host := if host = "" then "api.x.ai:443" else host
  let timeout : Duration := 60 * Second
  let s := getenv "XAI_TIMEOUT"
  let timeout :=
    if s ≠ "" then
      match ParseDuration s with
      | Except.ok d => d
      | Except.error _ => timeout
    else timeout
  let insecure := false
  let v := strings.ToLower unicodeToLower (getenv "XAI_INSECURE")
  let insecure := if v = "1" ∨ v = "true" ∨ v = "yes" then true else insecure
  { host := host, timeout := timeout, insecure := insecure }

/-- The dial options `NewClientWithOptions` assembles. -/
def NewClientWithOptions.opts (apiKey : String) (metadata : StringMap) (timeout : Duration)
    (useInsecure : Bool) : List DialOption :=
  let prc : perRPCCreds := { apiKey := apiKey, extraMD := metadata, secure := !useInsecure }
  let r : DialOption × perRPCCreds :=
    if useInsecure then
      (DialOption.WithTransportCredentials TransportCredentials.insecureCredentials,
        { prc with secure := false })
    else
      (DialOption.WithTransportCredentials TransportCredentials.tlsCredentials, prc)
  [r.1, DialOption.WithPerRPCCredentials r.2,
    DialOption.WithChainUnaryInterceptor (TimeoutInterceptor timeout)]

/-- `NewClientWithOptions`: dial the host with the assembled options; a dial error is a
panic, rendered as `Except.error`. `Dial` is `grpc.Dial`, acting on the state `σ` of the
RPC runtime. -/
def NewClientWithOptions {σ : Type}
    (Dial : σ → String → List DialOption → Except Error (σ × ClientConnRef)) (w : σ)
    (apiKey apiHost : String) (metadata : StringMap) (timeout : Duration)
    (useInsecure : Bool) : Except Error (σ × Client) :=
  match Dial w apiHost (NewClientWithOptions.opts apiKey metadata timeout useInsecure) with
  | Except.error err => Except.error err
  | Except.ok (w1, grpcConn) =>
    Except.ok (w1,
      { apiKey := apiKey
        auth := some { cc := grpcConn }
        chat := some { cc := grpcConn }
        conn := some grpcConn })

/-- `NewClient`: resolve host, timeout and security mode from the environment and delegate
to `NewClientWithOptions` with no extra metadata. -/
def NewClient {σ : Type}
    (Dial : σ → String → List DialOption → Except Error (σ × ClientConnRef))
    (getenv : String → String) (ParseDuration : String → Except Error Duration)
    (unicodeToLower : Char → Char) (w : σ) (apiKey : String) : Except Error (σ × Client) :=
  let o := NewClient.resolve getenv ParseDuration unicodeToLower
  NewClientWithOptions Dial w apiKey o.host ∅ o.timeout o.insecure

/-- `Close` releases the underlying connection: nothing happens for a `nil` client or an
unset connection, otherwise the result is that of the connection's own `Close`, which is
the parameter `connClose` acting on the state `σ` of the RPC runtime. The client record is
not assigned to. -/
def Client.Close {σ : Type} (connClose : σ → ClientConnRef → σ × Option Error) (w : σ)
    (c : Option Client) : σ × Option Error :=
  match c with
  | none => (w, none)
  | some cl =>
    match cl.conn with
    | none => (w, none)
    | some conn => connClose w conn

/-- The set of closed connections as the runtime state, and `grpc.ClientConn.Close` on it:
the first call closes the connection and returns `nil`, a call on a closed connection
returns `grpc.ErrClientConnClosing`. -/
def grpcConnClose (closed : List ClientConnRef) (conn : ClientConnRef) :
    List ClientConnRef × Option Error :=
  if conn ∈ closed then (closed, some "grpc: the client connection is closing")
  else (conn :: closed, none)

/-- The environment in which only `XAI_INSECURE` is set, to `v`. -/
def envInsecure (v : String) : String → String :=
  fun name => if name = "XAI_INSECURE" then v else ""

/-- The environment in which only `XAI_API_HOST` and `XAI_TIMEOUT` are set. -/
def envHostTimeout (h t : String) : String → String :=
  fun name => if name = "XAI_API_HOST" then h else if name = "XAI_TIMEOUT" then t else ""

/-- A duration parser for examples: it accepts `"30s"` and `"2m"` and rejects every other
string, the empty one included. -/
def sampleParseDuration (s : String) : Except Error Duration :=
  if s = "30s" then Except.ok (30 * Second)
  else if s = "2m" then Except.ok (120 * Second)
  else Except.error ("time: invalid duration " ++ s)

/-- Written from the spec, for comparison with the code: a character of the value agrees
with a lower-case character `t` of an accepted word when it is `t` itself or, `t` being one
of the letters `a..z`, the capital form of `t`. -/
def agreesIgnoringCase (c t : Char) : Bool :=
  decide (c = t) || decide (97 ≤ t.toNat ∧ t.toNat ≤ 122 ∧ c.toNat + 32 = t.toNat)

/-- Written from the spec, for comparison with the code: the value equals the lower-case
word, compared case-insensitively: same length, and agreement character by character. -/
def equalsIgnoringCase : List Char → List Char → Bool
  | [], [] => true
  | c :: cs, t :: ts => agreesIgnoringCase c t && equalsIgnoringCase cs ts
  | _, _ => false

/-- Written from the spec, for comparison with the code: the accepted truthy values of the
insecure-mode variable are `"1"`, `"true"` and `"yes"`, compared case-insensitively. -/
def isTruthy (v : String) : Bool :=
  equalsIgnoringCase v.data ['1'] || equalsIgnoringCase v.data ['t', 'r', 'u', 'e'] ||
    equalsIgnoringCase v.data ['y', 'e', 's']

/-- Written from the spec, for comparison with the code: the accepted truthy values spelled
out, `"1"` and every capitalisation of `"true"` and of `"yes"`. -/
def truthySpellings : List String :=
  ["1",
   "true", "truE", "trUe", "trUE", "tRue", "tRuE", "tRUe", "tRUE",
   "True", "TruE", "TrUe", "TrUE", "TRue", "TRuE", "TRUe", "TRUE",
   "yes", "yeS", "yEs", "yES", "Yes", "YeS", "YEs", "YES"]

/-- The characters of the three accepted words. -/
def truthyChars : List Char := ['1', 't', 'r', 'u', 'e', 'y', 's']

/-! ## Properties of the builders -/

/-- C1: at a non-positive result cap the preset `SearchParametersXOn` does not leave the cap
unset: for the inputs `(false, 0)` and `(true, -5)` its `MaxSearchResults` is the explicit
value `0`, resp. `-5`, while `SearchParameters` leaves the cap unset for the same inputs. -/
theorem SearchParametersXOn_nonpositive_cap_is_set :
    (SearchParametersXOn false 0).MaxSearchResults = some 0 ∧
    (SearchParameters SearchModeOn false 0 [some XSource]).MaxSearchResults = none ∧
    (SearchParametersXOn true (-5)).MaxSearchResults = some (-5) ∧
    (SearchParameters SearchModeOn true (-5) [some XSource]).MaxSearchResults = none ∧
    SearchParametersXOn false 0 ≠ SearchParameters SearchModeOn false 0 [some XSource] := by
  refine ⟨rfl, rfl, rfl, rfl, ?_⟩
  decide

/-- C2: for a positive result cap the preset `SearchParametersXOn` equals the hand-composed
`SearchParameters(SearchModeOn, returnCitations, maxSearchResults, XSource())`, which is the
value with mode on, the one-element source list `[XSource()]`, the given citation flag, the
cap set to the argument and no date range. -/
theorem SearchParametersXOn_eq_SearchParameters (returnCitations : Bool)
    (maxSearchResults : Int) (h : maxSearchResults > 0) :
    SearchParametersXOn returnCitations maxSearchResults =
        SearchParameters SearchModeOn returnCitations maxSearchResults [some XSource] ∧
    SearchParameters SearchModeOn returnCitations maxSearchResults [some XSource] =
      { Mode := SearchMode.ON_SEARCH_MODE
        Sources := [some XSource]
        ReturnCitations := returnCitations
        MaxSearchResults := some maxSearchResults
        FromDate := none
        ToDate := none } := by
  simp [SearchParametersXOn, SearchParameters, SearchModeOn, h]

/-- Witness of C2 at the inputs `(true, 3)` of the spec's example. -/
theorem SearchParametersXOn_eq_SearchParameters_witness :
    (3 : Int) > 0 ∧
    SearchParametersXOn true 3 = SearchParameters SearchModeOn true 3 [some XSource] ∧
    SearchParameters SearchModeOn true 3 [some XSource] =
      { Mode := SearchMode.ON_SEARCH_MODE
        Sources := [some XSource]
        ReturnCitations := true
        MaxSearchResults := some 3
        FromDate := none
        ToDate := none } :=
  ⟨by decide, SearchParametersXOn_eq_SearchParameters true 3 (by decide)⟩

/-- C3: `SearchParameters` returns the mode, citation flag and source list it was given
(same elements, same order), leaves both date bounds unset, and sets the result cap to
`maxSearchResults` exactly when `maxSearchResults > 0`, leaving it unset otherwise. -/
theorem SearchParameters_fields (mode : SearchMode) (returnCitations : Bool)
    (maxSearchResults : Int) (sources : List (Option Source)) :
    (SearchParameters mode returnCitations maxSearchResults sources).Mode = mode ∧
    (SearchParameters mode returnCitations maxSearchResults sources).ReturnCitations
      = returnCitations ∧
    (SearchParameters mode returnCitations maxSearchResults sources).Sources = sources ∧
    (SearchParameters mode returnCitations maxSearchResults sources).FromDate = none ∧
    (SearchParameters mode returnCitations maxSearchResults sources).ToDate = none ∧
    ((SearchParameters mode returnCitations maxSearchResults sources).MaxSearchResults
      = some maxSearchResults ↔ maxSearchResults > 0) ∧
    ((SearchParameters mode returnCitations maxSearchResults sources).MaxSearchResults
      = none ↔ ¬ maxSearchResults > 0) ∧
    ((SearchParameters mode returnCitations maxSearchResults sources).MaxSearchResults.isSome
      = true ↔ maxSearchResults > 0) := by
  unfold SearchParameters
  by_cases h : maxSearchResults > 0 <;> simp [h]

/-- C4: `User(text)` is a message with role user whose content list has exactly one
element, the block `ContentText(text)`, a text block carrying exactly `text`. -/
theorem User_single_text_block (text : String) :
    (User text).Role = MessageRole.ROLE_USER ∧
    (User text).Content.length = 1 ∧
    (User text).Content = [some (ContentText text)] ∧
    ContentText text = { Content := some (ContentOneof.Content_Text text) } :=
  ⟨rfl, rfl, rfl, rfl⟩

/-- C5: every source builder returns its own variant; `WebSource` and `NewsSource` leave the
country unset for the empty string and set it to the given string otherwise;
`XSourceWithArgs` leaves a threshold unset for `nil` and sets it to the supplied value
otherwise, a supplied `0` included; list fields and the safe-search flag pass through. -/
theorem source_builders_fields (excludedWebsites allowedWebsites includedHandles
    excludedHandles links : List String) (country : String) (safeSearch : Bool)
    (postFavoriteCount postViewCount : Option Int) (f v : Int) :
    WebSource excludedWebsites allowedWebsites country safeSearch =
      { Source := some (SourceOneof.Source_Web (some
          { ExcludedWebsites := excludedWebsites
            AllowedWebsites := allowedWebsites
            Country := if country = "" then none else some country
            SafeSearch := safeSearch })) } ∧
    NewsSource excludedWebsites country safeSearch =
      { Source := some (SourceOneof.Source_News (some
          { ExcludedWebsites := excludedWebsites
            Country := if country = "" then none else some country
            SafeSearch := safeSearch })) } ∧
    XSourceWithArgs includedHandles excludedHandles postFavoriteCount postViewCount =
      { Source := some (SourceOneof.Source_X (some
          { IncludedXHandles := includedHandles
            ExcludedXHandles := excludedHandles
            PostFavoriteCount := postFavoriteCount
            PostViewCount := postViewCount })) } ∧
    XSourceWithArgs includedHandles excludedHandles none none =
      { Source := some (SourceOneof.Source_X (some
          { IncludedXHandles := includedHandles
            ExcludedXHandles := excludedHandles
            PostFavoriteCount := none
            PostViewCount := none })) } ∧
    XSourceWithArgs includedHandles excludedHandles (some f) (some v) =
      { Source := some (SourceOneof.Source_X (some
          { IncludedXHandles := includedHandles
            ExcludedXHandles := excludedHandles
            PostFavoriteCount := some f
            PostViewCount := some v })) } ∧
    XSourceWithArgs includedHandles excludedHandles (some 0) (some 0) =
      { Source := some (SourceOneof.Source_X (some
          { IncludedXHandles := includedHandles
            ExcludedXHandles := excludedHandles
            PostFavoriteCount := some 0
            PostViewCount := some 0 })) } ∧
    RssSource links = { Source := some (SourceOneof.Source_Rss (some { Links := links })) } := by
  refine ⟨?_, ?_, ?_, rfl, rfl, rfl, rfl⟩
  · unfold WebSource
    by_cases h : country = "" <;> simp [h]
  · unfold NewsSource
    by_cases h : country = "" <;> simp [h]
  · unfold XSourceWithArgs
    cases postFavoriteCount <;> cases postViewCount <;> simp

/-! ## Properties of the connection set-up -/

/-- Copying the entries of a list with pairwise distinct keys into a map, one `insert` per
entry, makes every key of the list look up its own value and leaves the other keys as they
were in the map. -/
theorem lookup_foldl_insert (k : String) :
    ∀ (l : List (Sigma fun _ : String => String)) (acc : StringMap), l.NodupKeys →
      AList.lookup k (l.foldl (fun r a => r.insert a.1 a.2) acc) =
        match List.dlookup k l with
        | some x => some x
        | none => AList.lookup k acc := by
  intro l
  induction l with
  | nil => intro acc _; simp
  | cons e l ih =>
    intro acc hnd
    obtain ⟨a, b⟩ := e
    rw [List.nodupKeys_cons] at hnd
    rw [List.foldl_cons, ih _ hnd.2]
    by_cases hk : k = a
    · subst hk
      have hnone : List.dlookup k l = none := List.dlookup_eq_none.mpr hnd.1
      simp [hnone, AList.lookup_insert]
    · have hne : k ≠ (⟨a, b⟩ : Sigma fun _ : String => String).1 := hk
      rw [List.dlookup_cons_ne l ⟨a, b⟩ hne, AList.lookup_insert_ne hk]

/-- Copying a whole map into the empty map gives a map with the same look-ups. -/
theorem lookup_copy (k : String) (m : StringMap) :
    AList.lookup k (m.foldl (fun md k v => md.insert k v) ∅) = AList.lookup k m := by
  unfold AList.foldl
  rw [lookup_foldl_insert k m.entries ∅ m.nodupKeys]
  cases h : List.dlookup k m.entries with
  | none => simp [AList.lookup, h]
  | some x => simp [AList.lookup, h]

/-- C7: the header map of `GetRequestMetadata` maps `"x-api-key"` to the API key, also when
the extra metadata has an entry under that name, maps every other key of the extra metadata
to its configured value, has no further key, and the returned error is always `nil`. -/
theorem GetRequestMetadata_headers (apiKey : String) (extraMD : StringMap) (secure : Bool)
    (other : String) :
    let c : perRPCCreds := { apiKey := apiKey, extraMD := extraMD, secure := secure }
    c.GetRequestMetadata.2 = none ∧
    AList.lookup "x-api-key" c.GetRequestMetadata.1 = some apiKey ∧
    AList.lookup "x-api-key"
      (perRPCCreds.GetRequestMetadata
        { apiKey := apiKey, extraMD := extraMD.insert "x-api-key" other, secure := secure }).1
      = some apiKey ∧
    (∀ k : String, k ≠ "x-api-key" →
      AList.lookup k c.GetRequestMetadata.1 = AList.lookup k extraMD) ∧
    (∀ k : String, k ∈ c.GetRequestMetadata.1 → k = "x-api-key" ∨ k ∈ extraMD) := by
  intro c
  refine ⟨rfl, ?_, ?_, ?_, ?_⟩
  · simp [perRPCCreds.GetRequestMetadata, AList.lookup_insert]
  · simp [perRPCCreds.GetRequestMetadata, AList.lookup_insert]
  · intro k hk
    simp only [perRPCCreds.GetRequestMetadata, c]
    rw [AList.lookup_insert_ne hk, lookup_copy]
  · intro k hk
    by_cases hkey : k = "x-api-key"
    · exact Or.inl hkey
    · right
      simp only [perRPCCreds.GetRequestMetadata, c] at hk
      rw [← AList.lookup_isSome] at hk ⊢
      rw [AList.lookup_insert_ne hkey, lookup_copy] at hk
      exact hk

/-- C6: the dial options of `NewClientWithOptions` are the transport credentials, the
per-call credential provider and the timeout interceptor, with the two security settings
tied to `useInsecure`: the provider requires transport security exactly when `useInsecure`
is false, the transport credentials are the insecure ones exactly when it is true and TLS
exactly when it is false, so the transport is TLS exactly when the provider requires it;
these are the options the constructor dials with, for every host. -/
theorem NewClientWithOptions_security_consistent (apiKey : String) (metadata : StringMap)
    (timeout : Duration) (useInsecure : Bool) :
    ∃ (tc : TransportCredentials) (prc : perRPCCreds),
      NewClientWithOptions.opts apiKey metadata timeout useInsecure =
        [DialOption.WithTransportCredentials tc, DialOption.WithPerRPCCredentials prc,
          DialOption.WithChainUnaryInterceptor (TimeoutInterceptor timeout)] ∧
      prc.apiKey = apiKey ∧ prc.extraMD = metadata ∧
      (prc.RequireTransportSecurity = false ↔ useInsecure = true) ∧
      (prc.RequireTransportSecurity = true ↔ useInsecure = false) ∧
      (tc = TransportCredentials.insecureCredentials ↔ useInsecure = true) ∧
      (tc = TransportCredentials.tlsCredentials ↔ useInsecure = false) ∧
      (tc = TransportCredentials.tlsCredentials ↔ prc.RequireTransportSecurity = true) ∧
      (tc = TransportCredentials.insecureCredentials ↔
        prc.RequireTransportSecurity = false) ∧
      (∀ (σ : Type) (Dial : σ → String → List DialOption → Except Error (σ × ClientConnRef))
          (w : σ) (apiHost : String),
        NewClientWithOptions Dial w apiKey apiHost metadata timeout useInsecure =
          match Dial w apiHost
            [DialOption.WithTransportCredentials tc, DialOption.WithPerRPCCredentials prc,
              DialOption.WithChainUnaryInterceptor (TimeoutInterceptor timeout)] with
          | Except.error err => Except.error err
          | Except.ok (w1, grpcConn) =>
            Except.ok (w1,
              { apiKey := apiKey
                auth := some { cc := grpcConn }
                chat := some { cc := grpcConn }
                conn := some grpcConn })) := by
  cases useInsecure
  · exact ⟨TransportCredentials.tlsCredentials,
      { apiKey := apiKey, extraMD := metadata, secure := true },
      by simp [NewClientWithOptions.opts, perRPCCreds.RequireTransportSecurity],
      rfl, rfl, by simp [perRPCCreds.RequireTransportSecurity],
      by simp [perRPCCreds.RequireTransportSecurity], by simp, by simp,
      by simp [perRPCCreds.RequireTransportSecurity],
      by simp [perRPCCreds.RequireTransportSecurity],
      fun _ _ _ _ => rfl⟩
  · exact ⟨TransportCredentials.insecureCredentials,
      { apiKey := apiKey, extraMD := metadata, secure := false },
      by simp [NewClientWithOptions.opts],
      rfl, rfl, by simp [perRPCCreds.RequireTransportSecurity],
      by simp [perRPCCreds.RequireTransportSecurity], by simp, by simp,
      by simp [perRPCCreds.RequireTransportSecurity],
      by simp [perRPCCreds.RequireTransportSecurity],
      fun _ _ _ _ => rfl⟩

/-- C8: in the option resolution of `NewClient`, for a duration parser that rejects the
empty string: the host is `"api.x.ai:443"` when `XAI_API_HOST` is empty and the variable's
value otherwise; the timeout is exactly 60 seconds when `XAI_TIMEOUT` is empty or rejected
by the parser, and construction then goes on with that timeout; the timeout is the parsed
duration when the parser accepts the value. -/
theorem NewClient_resolve_host_timeout (getenv : String → String)
    (ParseDuration : String → Except Error Duration) (unicodeToLower : Char → Char)
    (hempty : ∀ d, ParseDuration "" ≠ Except.ok d) :
    (getenv "XAI_API_HOST" = "" →
      (NewClient.resolve getenv ParseDuration unicodeToLower).host = "api.x.ai:443") ∧
    (getenv "XAI_API_HOST" ≠ "" →
      (NewClient.resolve getenv ParseDuration unicodeToLower).host
        = getenv "XAI_API_HOST") ∧
    (getenv "XAI_TIMEOUT" = "" →
      (NewClient.resolve getenv ParseDuration unicodeToLower).timeout = 60000000000) ∧
    (∀ e, ParseDuration (getenv "XAI_TIMEOUT") = Except.error e →
      (NewClient.resolve getenv ParseDuration unicodeToLower).timeout = 60000000000) ∧
    (∀ d, ParseDuration (getenv "XAI_TIMEOUT") = Except.ok d →
      (NewClient.resolve getenv ParseDuration unicodeToLower).timeout = d) ∧
    (∀ (σ : Type) (Dial : σ → String → List DialOption → Except Error (σ × ClientConnRef))
        (w : σ) (apiKey : String),
      (getenv "XAI_TIMEOUT" = "" ∨ ∃ e, ParseDuration (getenv "XAI_TIMEOUT") = Except.error e) →
      NewClient Dial getenv ParseDuration unicodeToLower w apiKey =
        NewClientWithOptions Dial w apiKey
          (NewClient.resolve getenv ParseDuration unicodeToLower).host ∅ (60 * Second)
          (NewClient.resolve getenv ParseDuration unicodeToLower).insecure) := by
  have hsec : (60 : Int) * Second = 60000000000 := by decide
  have h1 : getenv "XAI_TIMEOUT" = "" →
      (NewClient.resolve getenv ParseDuration unicodeToLower).timeout = 60000000000 := by
    intro h
    simp [NewClient.resolve, h, hsec]
  have h2 : ∀ e, ParseDuration (getenv "XAI_TIMEOUT") = Except.error e →
      (NewClient.resolve getenv ParseDuration unicodeToLower).timeout = 60000000000 := by
    intro e h
    by_cases hs : getenv "XAI_TIMEOUT" = "" <;> simp [NewClient.resolve, h, hs, hsec]
  refine ⟨?_, ?_, h1, h2, ?_, ?_⟩
  · intro h
    simp [NewClient.resolve, h]
  · intro h
    simp [NewClient.resolve, h]
  · intro d h
    have hs : getenv "XAI_TIMEOUT" ≠ "" := by
      intro hs
      rw [hs] at h
      exact hempty d h
    simp [NewClient.resolve, h, hs]
  · intro σ Dial w apiKey h
    have ht : (NewClient.resolve getenv ParseDuration unicodeToLower).timeout
        = 60 * Second := by
      rw [hsec]
      rcases h with h | ⟨e, h⟩
      · exact h1 h
      · exact h2 e h
    simp only [NewClient, ht]

/-- Witness of C8: with the sample parser, no host override and `XAI_TIMEOUT=30s`, the host
is the default one and the timeout is 30 seconds; with `XAI_TIMEOUT=abc` it is 60 seconds. -/
theorem NewClient_resolve_host_timeout_witness :
    (∀ d, sampleParseDuration "" ≠ Except.ok d) ∧
    (NewClient.resolve (envHostTimeout "" "30s") sampleParseDuration id).host
      = "api.x.ai:443" ∧
    (NewClient.resolve (envHostTimeout "" "30s") sampleParseDuration id).timeout
      = 30000000000 ∧
    (NewClient.resolve (envHostTimeout "localhost:8080" "abc") sampleParseDuration id).host
      = "localhost:8080" ∧
    (NewClient.resolve (envHostTimeout "localhost:8080" "abc") sampleParseDuration id).timeout
      = 60000000000 := by
  have hempty : ∀ d, sampleParseDuration "" ≠ Except.ok d := by
    intro d h
    simp [sampleParseDuration] at h
  refine ⟨hempty, ?_, ?_, ?_, ?_⟩
  · exact (NewClient_resolve_host_timeout (envHostTimeout "" "30s") sampleParseDuration id
      hempty).1 (by decide)
  · exact (NewClient_resolve_host_timeout (envHostTimeout "" "30s") sampleParseDuration id
      hempty).2.2.2.2.1 30000000000
        (by simp [sampleParseDuration, envHostTimeout, Second])
  · exact (NewClient_resolve_host_timeout (envHostTimeout "localhost:8080" "abc")
      sampleParseDuration id hempty).2.1 (by decide)
  · exact (NewClient_resolve_host_timeout (envHostTimeout "localhost:8080" "abc")
      sampleParseDuration id hempty).2.2.2.1 "time: invalid duration abc"
        (by simp [sampleParseDuration, envHostTimeout])

/-- The characters of the accepted words are ASCII and none is a capital letter. -/
theorem truthyChars_ascii_lower (t : Char) (ht : t ∈ truthyChars) :
    t.toNat < 128 ∧ ¬ (65 ≤ t.toNat ∧ t.toNat ≤ 90) := by
  simp only [truthyChars, List.mem_cons, List.mem_singleton, List.not_mem_nil, or_false] at ht
  rcases ht with h | h | h | h | h | h | h <;> subst h <;> decide

/-- The code point of `Char.ofNat n` is `n` for an ASCII `n`. -/
theorem toNat_ofNat_ascii (n : Nat) (h : n < 128) : (Char.ofNat n).toNat = n := by
  interval_cases n <;> rfl

/-- Two characters with the same code point are equal. -/
theorem char_eq_of_toNat_eq (c d : Char) (h : c.toNat = d.toNat) : c = d := by
  rw [← Char.ofNat_toNat c, ← Char.ofNat_toNat d, h]

/-- Lower-casing a byte gives a non-capital `t` exactly when the byte agrees with `t` up to
letter case. -/
theorem asciiLower_eq_iff (c t : Char) (ht : ¬ (65 ≤ t.toNat ∧ t.toNat ≤ 90)) :
    asciiLower c = t ↔ agreesIgnoringCase c t = true := by
  unfold asciiLower agreesIgnoringCase
  by_cases hc : 65 ≤ c.toNat ∧ c.toNat ≤ 90
  · rw [if_pos hc]
    constructor
    · intro h
      have h1 : t.toNat = c.toNat + 32 := by
        rw [← h]
        exact toNat_ofNat_ascii _ (by omega)
      simp only [Bool.or_eq_true, decide_eq_true_eq]
      right
      omega
    · intro h
      simp only [Bool.or_eq_true, decide_eq_true_eq] at h
      rcases h with h | h
      · subst h
        exact absurd hc ht
      · rw [h.2.2]
        exact Char.ofNat_toNat t
  · rw [if_neg hc]
    constructor
    · intro h
      simp [h]
    · intro h
      simp only [Bool.or_eq_true, decide_eq_true_eq] at h
      rcases h with h | h
      · exact h
      · exact absurd ⟨by omega, by omega⟩ hc

/-- Lower-casing a list of bytes gives a word without capitals exactly when the list equals
the word up to letter case. -/
theorem map_asciiLower_eq_iff :
    ∀ (l ts : List Char), (∀ t ∈ ts, ¬ (65 ≤ t.toNat ∧ t.toNat ≤ 90)) →
      (l.map asciiLower = ts ↔ equalsIgnoringCase l ts = true) := by
  intro l
  induction l with
  | nil =>
    intro ts _
    cases ts <;> simp [equalsIgnoringCase]
  | cons c cs ih =>
    intro ts hts
    cases ts with
    | nil => simp [equalsIgnoringCase]
    | cons t ts =>
      have h1 := asciiLower_eq_iff c t (hts t (List.mem_cons_self t ts))
      have h2 := ih ts (fun x hx => hts x (List.mem_cons_of_mem t hx))
      simp only [List.map_cons, List.cons.injEq, equalsIgnoringCase, Bool.and_eq_true]
      rw [h1, h2]

/-- A list that equals an ASCII word up to letter case consists of ASCII characters. -/
theorem equalsIgnoringCase_ascii :
    ∀ (l ts : List Char), (∀ t ∈ ts, t.toNat < 128) → equalsIgnoringCase l ts = true →
      ∀ c ∈ l, c.toNat < 128 := by
  intro l
  induction l with
  | nil => intro ts _ _ c hc; cases hc
  | cons a cs ih =>
    intro ts hts h c hc
    cases ts with
    | nil => simp [equalsIgnoringCase] at h
    | cons t ts =>
      simp only [equalsIgnoringCase, Bool.and_eq_true] at h
      rcases List.mem_cons.mp hc with hca | hcs
      · subst hca
        have ht := hts t (List.mem_cons_self t ts)
        have ha := h.1
        simp only [agreesIgnoringCase, Bool.or_eq_true, decide_eq_true_eq] at ha
        rcases ha with ha | ha
        · rw [ha]; exact ht
        · omega
      · exact ih ts (fun x hx => hts x (List.mem_cons_of_mem t hx)) h.2 c hcs

/-- On a string of ASCII characters `strings.ToLower` lower-cases every byte. -/
theorem ToLower_of_ascii (u : Char → Char) (s : String)
    (h : s.data.all (fun c => decide (c.toNat < 128)) = true) :
    strings.ToLower u s = String.mk (s.data.map asciiLower) := by
  unfold strings.ToLower
  simp only [h, if_true]
  by_cases hup : s.data.any (fun c => decide (65 ≤ c.toNat ∧ c.toNat ≤ 90)) = true
  · simp only [hup, Bool.not_true, Bool.false_eq_true, if_false]
  · have hf : s.data.any (fun c => decide (65 ≤ c.toNat ∧ c.toNat ≤ 90)) = false := by
      simpa using hup
    have hid : s.data.map asciiLower = s.data := by
      have hfix : ∀ c ∈ s.data, asciiLower c = id c := by
        intro c hc
        unfold asciiLower
        have hn : ¬ (65 ≤ c.toNat ∧ c.toNat ≤ 90) := by
          intro hcu
          apply hup
          rw [List.any_eq_true]
          exact ⟨c, hc, by simpa using hcu⟩
        rw [if_neg hn]
        rfl
      rw [List.map_congr_left hfix, List.map_id]
    simp only [hf, Bool.not_false, if_true]
    rw [hid]

/-- Two strings built from lists are equal exactly when the lists are. -/
theorem mk_eq_mk_iff (a b : List Char) : String.mk a = String.mk b ↔ a = b :=
  ⟨fun h => congrArg String.data h, fun h => by rw [h]⟩

/-- The comparison the code makes, `strings.ToLower(value) == word`, is the case-insensitive
comparison of the value with the word, for a word made of the characters of `"1"`, `"true"`
and `"yes"`, provided `unicode.ToLower` sends no rune outside ASCII to such a character. -/
theorem ToLower_eq_iff (u : Char → Char)
    (hu : ∀ c : Char, 128 ≤ c.toNat → u c ∉ truthyChars) (v : String) (ts : List Char)
    (hts : ∀ t ∈ ts, t ∈ truthyChars) :
    strings.ToLower u v = String.mk ts ↔ equalsIgnoringCase v.data ts = true := by
  by_cases hascii : v.data.all (fun c => decide (c.toNat < 128)) = true
  · rw [ToLower_of_ascii u v hascii, mk_eq_mk_iff]
    exact map_asciiLower_eq_iff v.data ts (fun t ht => (truthyChars_ascii_lower t (hts t ht)).2)
  · have hex : ∃ c ∈ v.data, 128 ≤ c.toNat := by
      by_contra hno
      apply hascii
      rw [List.all_eq_true]
      intro c hc
      have : ¬ 128 ≤ c.toNat := fun h128 => hno ⟨c, hc, h128⟩
      simpa using this
    obtain ⟨c, hc, h128⟩ := hex
    constructor
    · intro h
      exfalso
      have hmap : v.data.map u = ts := by
        unfold strings.ToLower at h
        simp only [hascii, Bool.false_eq_true, if_false] at h
        exact (mk_eq_mk_iff _ _).mp h
      have hmem : u c ∈ ts := by
        rw [← hmap]
        exact List.mem_map_of_mem u hc
      exact hu c h128 (hts _ hmem)
    · intro h
      exfalso
      have := equalsIgnoringCase_ascii v.data ts
        (fun t ht => (truthyChars_ascii_lower t (hts t ht)).1) h c hc
      omega

/-- The flag the code computes is the spec's truthy test of the variable's value. -/
theorem resolve_insecure_eq_isTruthy (getenv : String → String)
    (ParseDuration : String → Except Error Duration) (u : Char → Char)
    (hu : ∀ c : Char, 128 ≤ c.toNat → u c ∉ truthyChars) :
    (NewClient.resolve getenv ParseDuration u).insecure = isTruthy (getenv "XAI_INSECURE") := by
  have h1 : strings.ToLower u (getenv "XAI_INSECURE") = "1" ↔
      equalsIgnoringCase (getenv "XAI_INSECURE").data ['1'] = true :=
    ToLower_eq_iff u hu (getenv "XAI_INSECURE") ['1'] (by simp [truthyChars])
  have h2 : strings.ToLower u (getenv "XAI_INSECURE") = "true" ↔
      equalsIgnoringCase (getenv "XAI_INSECURE").data ['t', 'r', 'u', 'e'] = true :=
    ToLower_eq_iff u hu (getenv "XAI_INSECURE") ['t', 'r', 'u', 'e'] (by simp [truthyChars])
  have h3 : strings.ToLower u (getenv "XAI_INSECURE") = "yes" ↔
      equalsIgnoringCase (getenv "XAI_INSECURE").data ['y', 'e', 's'] = true :=
    ToLower_eq_iff u hu (getenv "XAI_INSECURE") ['y', 'e', 's'] (by simp [truthyChars])
  simp only [NewClient.resolve, isTruthy]
  rw [Bool.eq_iff_iff]
  simp only [Bool.or_eq_true, h1, h2, h3, or_assoc]
  simp

/-- A character that agrees with a letter up to case is the letter or its capital. -/
theorem agreesIgnoringCase_cases (c t : Char) (h : agreesIgnoringCase c t = true) :
    c = t ∨ c = Char.ofNat (t.toNat - 32) := by
  simp only [agreesIgnoringCase, Bool.or_eq_true, decide_eq_true_eq] at h
  rcases h with h | h
  · exact Or.inl h
  · right
    have : t.toNat - 32 = c.toNat := by omega
    rw [this, Char.ofNat_toNat]

/-- Only the empty list equals the empty word up to letter case. -/
theorem equalsIgnoringCase_nil (l : List Char) (h : equalsIgnoringCase l [] = true) :
    l = [] := by
  cases l with
  | nil => rfl
  | cons c cs => simp [equalsIgnoringCase] at h

/-- A list that equals a non-empty word up to letter case has a first character agreeing
with the first one of the word and a rest equal to the rest of the word up to case. -/
theorem equalsIgnoringCase_cons (l : List Char) (t : Char) (ts : List Char)
    (h : equalsIgnoringCase l (t :: ts) = true) :
    ∃ c cs, l = c :: cs ∧ (c = t ∨ c = Char.ofNat (t.toNat - 32)) ∧
      equalsIgnoringCase cs ts = true := by
  cases l with
  | nil => simp [equalsIgnoringCase] at h
  | cons c cs =>
    simp only [equalsIgnoringCase, Bool.and_eq_true] at h
    exact ⟨c, cs, rfl, agreesIgnoringCase_cases c t h.1, h.2⟩

/-- The case-insensitive truthy test accepts exactly the spelled-out values. -/
theorem isTruthy_iff_spelling (v : String) : isTruthy v = true ↔ v ∈ truthySpellings := by
  constructor
  · intro h
    obtain ⟨l⟩ := v
    simp only [isTruthy, Bool.or_eq_true] at h
    rcases h with (h | h) | h
    · obtain ⟨a, l1, e1, ha, h1⟩ := equalsIgnoringCase_cons _ _ _ h
      have e0 := equalsIgnoringCase_nil _ h1
      subst e0 e1
      rcases ha with ha | ha
      · subst ha
        decide
      · subst ha
        exact absurd h (by decide)
    · obtain ⟨a, l1, e1, ha, h⟩ := equalsIgnoringCase_cons _ _ _ h
      obtain ⟨b, l2, e2, hb, h⟩ := equalsIgnoringCase_cons _ _ _ h
      obtain ⟨c, l3, e3, hc, h⟩ := equalsIgnoringCase_cons _ _ _ h
      obtain ⟨d, l4, e4, hd, h⟩ := equalsIgnoringCase_cons _ _ _ h
      have e0 := equalsIgnoringCase_nil _ h
      subst e0 e4 e3 e2 e1
      rcases ha with ha | ha <;> rcases hb with hb | hb <;> rcases hc with hc | hc <;>
        rcases hd with hd | hd <;> subst ha <;> subst hb <;> subst hc <;> subst hd <;> decide
    · obtain ⟨a, l1, e1, ha, h⟩ := equalsIgnoringCase_cons _ _ _ h
      obtain ⟨b, l2, e2, hb, h⟩ := equalsIgnoringCase_cons _ _ _ h
      obtain ⟨c, l3, e3, hc, h⟩ := equalsIgnoringCase_cons _ _ _ h
      have e0 := equalsIgnoringCase_nil _ h
      subst e0 e3 e2 e1
      rcases ha with ha | ha <;> rcases hb with hb | hb <;> rcases hc with hc | hc <;>
        subst ha <;> subst hb <;> subst hc <;> decide
  · intro h
    simp only [truthySpellings, List.mem_cons, List.mem_singleton, List.not_mem_nil,
      or_false] at h
    rcases h with h | h | h | h | h | h | h | h | h | h | h | h | h | h | h | h | h | h | h |
      h | h | h | h | h | h <;> subst h <;> decide

/-- A spelled-out truthy value has no whitespace character. -/
theorem truthySpellings_no_whitespace (v : String) (h : v ∈ truthySpellings) :
    ∀ c ∈ v.data, c.isWhitespace = false := by
  simp only [truthySpellings, List.mem_cons, List.mem_singleton, List.not_mem_nil,
    or_false] at h
  rcases h with h | h | h | h | h | h | h | h | h | h | h | h | h | h | h | h | h | h | h |
    h | h | h | h | h | h <;> subst h <;> decide

/-- C9: `NewClient` selects insecure mode if and only if the value of `XAI_INSECURE`,
compared case-insensitively, is `"1"`, `"true"` or `"yes"`, that is one of the 25 spellings
of these words: for such a value it dials with the insecure transport credentials and a
provider that does not require transport security, and for every other value, the empty
string, `"0"`, `"false"`, `"on"` and every value with a whitespace character included, it
dials with TLS and a provider that requires it. The hypothesis is a fact of
`unicode.ToLower`, which here is a parameter: it sends no rune outside ASCII to one of the
characters of the three words. -/
theorem NewClient_insecure_iff_truthy (getenv : String → String)
    (ParseDuration : String → Except Error Duration) (unicodeToLower : Char → Char)
    (hu : ∀ c : Char, 128 ≤ c.toNat → unicodeToLower c ∉ truthyChars) :
    ((NewClient.resolve getenv ParseDuration unicodeToLower).insecure = true ↔
      isTruthy (getenv "XAI_INSECURE") = true) ∧
    (isTruthy (getenv "XAI_INSECURE") = true ↔ getenv "XAI_INSECURE" ∈ truthySpellings) ∧
    (getenv "XAI_INSECURE" ∈ truthySpellings →
      ∀ (σ : Type) (Dial : σ → String → List DialOption → Except Error (σ × ClientConnRef))
        (w : σ) (apiKey : String),
        NewClient Dial getenv ParseDuration unicodeToLower w apiKey =
          match Dial w (NewClient.resolve getenv ParseDuration unicodeToLower).host
            [DialOption.WithTransportCredentials TransportCredentials.insecureCredentials,
              DialOption.WithPerRPCCredentials
                { apiKey := apiKey, extraMD := ∅, secure := false },
              DialOption.WithChainUnaryInterceptor (TimeoutInterceptor
                (NewClient.resolve getenv ParseDuration unicodeToLower).timeout)] with
          | Except.error err => Except.error err
          | Except.ok (w1, grpcConn) =>
            Except.ok (w1,
              { apiKey := apiKey
                auth := some { cc := grpcConn }
                chat := some { cc := grpcConn }
                conn := some grpcConn })) ∧
    (getenv "XAI_INSECURE" ∉ truthySpellings →
      ∀ (σ : Type) (Dial : σ → String → List DialOption → Except Error (σ × ClientConnRef))
        (w : σ) (apiKey : String),
        NewClient Dial getenv ParseDuration unicodeToLower w apiKey =
          match Dial w (NewClient.resolve getenv ParseDuration unicodeToLower).host
            [DialOption.WithTransportCredentials TransportCredentials.tlsCredentials,
              DialOption.WithPerRPCCredentials
                { apiKey := apiKey, extraMD := ∅, secure := true },
              DialOption.WithChainUnaryInterceptor (TimeoutInterceptor
                (NewClient.resolve getenv ParseDuration unicodeToLower).timeout)] with
          | Except.error err => Except.error err
          | Except.ok (w1, grpcConn) =>
            Except.ok (w1,
              { apiKey := apiKey
                auth := some { cc := grpcConn }
                chat := some { cc := grpcConn }
                conn := some grpcConn })) ∧
    ((∃ c ∈ (getenv "XAI_INSECURE").data, c.isWhitespace = true) →
      getenv "XAI_INSECURE" ∉ truthySpellings ∧
      (NewClient.resolve getenv ParseDuration unicodeToLower).insecure = false) ∧
    (getenv "XAI_INSECURE" ∈ ["", "0", "false", "on", "no", "off", "2", "t", "y", "truee"] →
      getenv "XAI_INSECURE" ∉ truthySpellings ∧
      (NewClient.resolve getenv ParseDuration unicodeToLower).insecure = false) := by
  have hflag := resolve_insecure_eq_isTruthy getenv ParseDuration unicodeToLower hu
  have hspell := isTruthy_iff_spelling (getenv "XAI_INSECURE")
  have hoff : getenv "XAI_INSECURE" ∉ truthySpellings →
      (NewClient.resolve getenv ParseDuration unicodeToLower).insecure = false := by
    intro hn
    rw [hflag]
    cases ht : isTruthy (getenv "XAI_INSECURE") with
    | false => rfl
    | true => exact absurd (hspell.mp ht) hn
  refine ⟨by rw [hflag], hspell, ?_, ?_, ?_, ?_⟩
  · intro hin σ Dial w apiKey
    have hon : (NewClient.resolve getenv ParseDuration unicodeToLower).insecure = true := by
      rw [hflag]
      exact hspell.mpr hin
    simp only [NewClient, hon]
    rfl
  · intro hn σ Dial w apiKey
    simp only [NewClient, hoff hn]
    rfl
  · intro hws
    obtain ⟨c, hc, hw⟩ := hws
    have hn : getenv "XAI_INSECURE" ∉ truthySpellings := by
      intro hin
      have := truthySpellings_no_whitespace _ hin c hc
      rw [hw] at this
      exact Bool.noConfusion this
    exact ⟨hn, hoff hn⟩
  · intro hlit
    have hn : getenv "XAI_INSECURE" ∉ truthySpellings := by
      simp only [List.mem_cons, List.mem_singleton, List.not_mem_nil, or_false] at hlit
      rcases hlit with h | h | h | h | h | h | h | h | h | h <;> rw [h] <;> decide
    exact ⟨hn, hoff hn⟩

/-- Witness of C9: with the identity as rune mapping, `XAI_INSECURE=TRUE` selects insecure
mode and `XAI_INSECURE= true` (a leading blank) does not. -/
theorem NewClient_insecure_iff_truthy_witness :
    (∀ c : Char, 128 ≤ c.toNat → id c ∉ truthyChars) ∧
    (NewClient.resolve (envInsecure "TRUE") sampleParseDuration id).insecure = true ∧
    (NewClient.resolve (envInsecure " true") sampleParseDuration id).insecure = false := by
  have hid : ∀ c : Char, 128 ≤ c.toNat → id c ∉ truthyChars := by
    intro c h hm
    simp only [id, truthyChars, List.mem_cons, List.mem_singleton, List.not_mem_nil,
      or_false] at hm
    rcases hm with e | e | e | e | e | e | e <;> subst e <;> exact absurd h (by decide)
  refine ⟨hid, ?_, ?_⟩
  · have h := NewClient_insecure_iff_truthy (envInsecure "TRUE") sampleParseDuration id hid
    exact h.1.mpr (h.2.1.mpr (by decide))
  · exact ((NewClient_insecure_iff_truthy (envInsecure " true") sampleParseDuration id
      hid).2.2.2.2.1 ⟨' ', by decide, by decide⟩).2

/-- C10, as stated, fails: on a client with a connection, over a runtime whose connection
`Close` reports `grpc.ErrClientConnClosing` for a closed connection, the first `Close`
returns no error and the second one returns that error; hence it is not true that two
`Close` calls in a row return no error for every client and every runtime. -/
theorem Close_twice_returns_error :
    (Client.Close grpcConnClose [] (some { conn := some 7 })).2 = none ∧
    (Client.Close grpcConnClose
        (Client.Close grpcConnClose [] (some { conn := some 7 })).1
        (some { conn := some 7 })).2
      = some "grpc: the client connection is closing" ∧
    ¬ (∀ (σ : Type) (connClose : σ → ClientConnRef → σ × Option Error) (w : σ)
        (c : Option Client),
        (Client.Close connClose w c).2 = none ∧
        (Client.Close connClose (Client.Close connClose w c).1 c).2 = none) := by
  have h2 : (Client.Close grpcConnClose
        (Client.Close grpcConnClose [] (some { conn := some 7 })).1
        (some { conn := some 7 })).2
      = some "grpc: the client connection is closing" := by
    simp [Client.Close, grpcConnClose]
  refine ⟨by simp [Client.Close, grpcConnClose], h2, ?_⟩
  intro hall
  have h := (hall (List ClientConnRef) grpcConnClose [] (some { conn := some 7 })).2
  rw [h2] at h
  exact Option.noConfusion h

/-- C10, amended: `Close` on a `nil` client or on a client whose connection is unset returns
no error and leaves the runtime as it is, any number of times; on a client with a connection
every `Close` returns what the connection's own `Close` returns on the current runtime
state, the second call included, so two calls return no error when the connection's `Close`
returns none on both states. -/
theorem Close_nil_noop_else_delegates {σ : Type}
    (connClose : σ → ClientConnRef → σ × Option Error) (w : σ) (c : Client)
    (conn : ClientConnRef) :
    Client.Close connClose w none = (w, none) ∧
    Client.Close connClose w (some { c with conn := none }) = (w, none) ∧
    Client.Close connClose (Client.Close connClose w none).1 none = (w, none) ∧
    Client.Close connClose
        (Client.Close connClose w (some { c with conn := none })).1
        (some { c with conn := none }) = (w, none) ∧
    Client.Close connClose w (some { c with conn := some conn }) = connClose w conn ∧
    Client.Close connClose
        (Client.Close connClose w (some { c with conn := some conn })).1
        (some { c with conn := some conn }) = connClose (connClose w conn).1 conn :=
  ⟨rfl, rfl, rfl, rfl, rfl, rfl⟩

end Xai
